import Mathlib

/-!
Verification of the MOHU Budapest selective waste calendar scraper
(`src/python/mohu.py`) against its specification.

The embedding is shallow.  Python strings are Lean `String`s viewed as
lists of code points.  The external libraries are modelled at their
call boundary:

* BeautifulSoup parsing of an option fragment yields the fragment's
  `<option>` elements, in document order, as a `List OptionElem`;
  parsing of a results fragment yields its `tbody tr` rows, each row the
  list of its `<td>` cells (`List (List Td)`), where a cell records its
  text and the set of CSS marker classes for which
  `select_one(".cls")` would find a descendant element.
* `json.loads` yields either a decoding error or the decoded object;
  the decoded object is modelled as an association list from keys to
  already-parsed HTML fragment values (the only JSON values the program
  reads are HTML strings that it immediately parses).
* The `requests` session is modelled by an environment carrying, for
  each of the four requests that one `fetch_garbage` run issues, the
  HTTP status code and the (decoded) body the server answers with.

All functions are executable and keep the source's names.
-/

deriving instance DecidableEq for Except

/-- Python's falsy test `not s` / truthiness for the characters the
program strips: the whitespace characters `str.strip()` removes (the
common ASCII whitespace set; sufficient for the inputs at hand). -/
def pyIsSpace (c : Char) : Bool :=
  c == ' ' || c == '\t' || c == '\n' || c == '\r' || c == '\x0b' || c == '\x0c'

/-- Strip leading and trailing whitespace from a list of code points,
modelling Python's `str.strip()`. -/
def stripChars (l : List Char) : List Char :=
  ((l.dropWhile pyIsSpace).reverse.dropWhile pyIsSpace).reverse

/-- Python `s.strip()`. -/
def pyStrip (s : String) : String := String.mk (stripChars s.data)

/-- Per-character lowercasing modelling Python's `str.lower` on the
character ranges the site uses: ASCII letters, the Latin-1 uppercase
letters `À`–`Þ` (excluding the multiplication sign), and the Hungarian
double-acute letters `Ő`, `Ű`.  Other characters are unchanged. -/
def charLower (c : Char) : Char :=
  if 'A' ≤ c ∧ c ≤ 'Z' then Char.ofNat (c.toNat + 32)
  else if ('À' ≤ c ∧ c ≤ 'Þ') ∧ c ≠ '×' then Char.ofNat (c.toNat + 32)
  else if c = 'Ő' then 'ő'
  else if c = 'Ű' then 'ű'
  else c

/-- Python `s.lower()`. -/
def pyLower (s : String) : String := String.mk (s.data.map charLower)

/-- Fold the en dash and the em dash to a plain hyphen, modelling
`s.replace("–","-").replace("—","-")` (both patterns are single
characters, so the two replacements are one character map). -/
def dashChar (c : Char) : Char :=
  if c = '–' ∨ c = '—' then '-' else c

/-- Python `s.replace("–","-").replace("—","-")`. -/
def dashRepl (s : String) : String := String.mk (s.data.map dashChar)

/-- The label normalization of `pick_option`, source line 73:
`norm = lambda s: s.lower().replace("–","-").replace("—","-").strip()`. -/
def norm (s : String) : String := pyStrip (dashRepl (pyLower s))

/-- `isPrefixB a b` is true when the code-point list `a` is a prefix of
`b` (Boolean, executable). -/
def isPrefixB : List Char → List Char → Bool
  | [], _ => true
  | _ :: _, [] => false
  | a :: as, b :: bs => a == b && isPrefixB as bs

/-- `isInfixB a b` is true when `a` occurs contiguously inside `b`;
this is Python's substring test `a in b` on code-point lists. -/
def isInfixB : List Char → List Char → Bool
  | a, [] => isPrefixB a []
  | a, b :: bs => isPrefixB a (b :: bs) || isInfixB a bs

/-- Python's `a in b` on strings. -/
def isSubstrB (a b : String) : Bool := isInfixB a.data b.data

/-- An HTML `<option>` element of a fragment: the `value` attribute
(absent modelled as `none`, matching BeautifulSoup's `o.get("value")`
returning `None`) and the element text `o.text`. -/
structure OptionElem where
  value : Option String
  text : String
deriving DecidableEq, Repr

/-- The error raised by `pick_option` (source line 79): a RuntimeError
whose message carries the sought label and the accumulated candidate
`(value, label)` pairs `labs`. -/
structure PickErr where
  label : String
  candidates : List (String × String)
deriving DecidableEq, Repr

/-- The per-candidate match condition of `pick_option`, source line 78:
`l==label or l.lower()==label.lower() or norm(label) in norm(l)`. -/
def rulesMatch (label l : String) : Bool :=
  l == label || pyLower l == pyLower label || isSubstrB (norm label) (norm l)

/-- The loop of `pick_option` (source lines 74-79), with the candidate
accumulator `labs` explicit.  For each option: `v` is the stripped
value (empty when absent), `l` the stripped text; empty-text options
are skipped (`if not l: continue`); otherwise the pair is appended to
`labs` and the option is returned (`v or l`) when the match condition
holds. -/
def pick_optionAux (label : String) : List OptionElem → List (String × String) → Except PickErr String
  | [], labs => .error ⟨label, labs⟩
  | o :: os, labs =>
    let v := pyStrip (o.value.getD "")
    let l := pyStrip o.text
    if l == "" then pick_optionAux label os labs
    else
      let labs2 := labs ++ [(v, l)]
      if rulesMatch label l then .ok (if v == "" then l else v)
      else pick_optionAux label os labs2

/-- `pick_option(html, label)` (source lines 39-79), over the option
elements decoded from the fragment. -/
def pick_option (opts : List OptionElem) (label : String) : Except PickErr String :=
  pick_optionAux label opts []

/-- The effective result of a matched option: its stripped value, or
its stripped text when the value is empty (`return v or l`). -/
def effValue (o : OptionElem) : String :=
  let v := pyStrip (o.value.getD "")
  let l := pyStrip o.text
  if v == "" then l else v

/-- The candidate `(value, label)` pairs of a fragment: the stripped
value and text of every option whose stripped text is non-empty, in
document order — the final value of `labs` when no option matches. -/
def candidates (opts : List OptionElem) : List (String × String) :=
  (opts.filter fun o => pyStrip o.text != "").map
    fun o => (pyStrip (o.value.getD ""), pyStrip o.text)

/-- A `<td>` cell of the results table: its text, and the list of CSS
classes `c` for which `td.select_one(".c")` finds a descendant. -/
structure Td where
  text : String
  markers : List String
deriving DecidableEq, Repr

/-- A `json.loads` failure (`json.JSONDecodeError`). -/
structure JsonErr where
  msg : String
deriving DecidableEq, Repr

/-- Python `dict.get(k, dflt)` on a decoded JSON object, modelled as an
association list with unique keys (first hit wins). -/
def objGet {α : Type} (obj : List (String × α)) (k : String) (dflt : α) : α :=
  match obj.find? fun p => p.1 == k with
  | some p => p.2
  | none => dflt

/-- The row rule of the `extract_dates` comprehension (source lines
110-113): a row qualifies when it has at least three cells and its
third cell contains a `.selective` marker; it yields the trimmed text
of the second cell. -/
def rowDate (tds : List Td) : Option String :=
  match tds with
  | _ :: t1 :: t2 :: _ =>
    if t2.markers.contains "selective" then some (pyStrip t1.text) else none
  | _ => none

/-- `extract_dates(text)` (source lines 81-113).  The input is the
outcome of `json.loads(text)`: a decode error (propagated, the function
installs no handler) or the decoded object, whose `"ajax/calSearchResults"`
value is the results fragment already parsed to its `tbody tr` rows
(absent key defaults to the empty fragment, i.e. no rows). -/
def extract_dates (input : Except JsonErr (List (String × List (List Td)))) :
    Except JsonErr (List String) :=
  match input with
  | .error e => .error e
  | .ok data => .ok ((objGet data "ajax/calSearchResults" []).filterMap rowDate)

/-- `dashVar c d` holds when the code point `d` is the code point `c`
itself, or `c` is a plain hyphen and `d` an en dash or em dash — one
position of the dash-variant relation of claim C8. -/
def dashVar (c d : Char) : Bool :=
  d == c || (c == '-' && (d == '–' || d == '—'))

/-- Pointwise dash-variant relation on code-point lists: the two lists
have equal length and agree up to replacing plain hyphens of the first
by en or em dashes in the second. -/
def dashVars : List Char → List Char → Bool
  | [], [] => true
  | c :: cs, d :: ds => dashVar c d && dashVars cs ds
  | _, _ => false

/-- The Date Extractor row selection as the spec states it: keep the
rows with at least three columns whose third column contains a
"selective" marker, and take the trimmed text of the second column of
each, in document order. -/
def specSelectiveDates (rows : List (List Td)) : List String :=
  (rows.filter fun r => decide (3 ≤ r.length) && (r.getD 2 ⟨"", []⟩).markers.contains "selective").map
    fun r => pyStrip (r.getD 1 ⟨"", []⟩).text

/-- The matcher loop with the per-candidate condition reduced to the
normalized-substring rule alone, as claim C10 describes it, for
comparison with `pick_optionAux`. -/
def pick_optionSubAux (label : String) : List OptionElem → List (String × String) → Except PickErr String
  | [], labs => .error ⟨label, labs⟩
  | o :: os, labs =>
    let v := pyStrip (o.value.getD "")
    let l := pyStrip o.text
    if l == "" then pick_optionSubAux label os labs
    else
      let labs2 := labs ++ [(v, l)]
      if isSubstrB (norm label) (norm l) then .ok (if v == "" then l else v)
      else pick_optionSubAux label os labs2

/-- The matcher using only the normalized-substring rule (claim C10's
candidate refinement of `pick_option`). -/
def pick_optionSub (opts : List OptionElem) (label : String) : Except PickErr String :=
  pick_optionSubAux label opts []

/-- A two-option fragment: the first option matches the label `"ab"`
only by normalized-substring containment, the second carries `"ab"`
verbatim as its text. -/
def cexC1 : List OptionElem := [⟨some "1", "xaby"⟩, ⟨some "2", "ab"⟩]

/-- An HTTP response: status code and decoded body. -/
structure Resp (α : Type) where
  status : Nat
  body : α
deriving Repr

/-- The errors a `fetch_garbage` run can propagate: `requests.HTTPError`
from `raise_for_status`, a JSON decode error, or the RuntimeError of
`pick_option`. -/
inductive FetchErr where
  | httpError (status : Nat)
  | jsonError (e : JsonErr)
  | runtimeError (e : PickErr)
deriving DecidableEq, Repr

/-- `Response.raise_for_status()` of the requests library: raises
`HTTPError` exactly for status codes 400-599. -/
def raise_for_status (status : Nat) : Except FetchErr Unit :=
  if 400 ≤ status ∧ status < 600 then .error (.httpError status) else .ok ()

/-- The body of a response whose JSON object maps partial names to
option fragments (the streets and house-numbers responses). -/
abbrev OptBody := Except JsonErr (List (String × List OptionElem))

/-- The body of the final search response: its JSON object maps partial
names to results fragments (parsed to rows). -/
abbrev RowBody := Except JsonErr (List (String × List (List Td)))

/-- The network environment of one `fetch_garbage` run: what the server
answers to each of the four requests, in order — the initial GET of the
base page, the district POST, the street POST and the search POST. -/
structure Env where
  getStatus : Nat
  streetsResp : Resp OptBody
  housesResp : Resp OptBody
  searchResp : Resp RowBody
deriving Repr

/-- The inner helper `post` of `fetch_garbage` (source lines 158-162):
checks the status (`r.raise_for_status()`), then decodes the body and
extracts the named partial with default `""` (empty fragment). -/
def post (r : Resp OptBody) (part : String) : Except FetchErr (List OptionElem) := do
  let _ ← raise_for_status r.status
  match r.body with
  | .error e => .error (.jsonError e)
  | .ok data => .ok (objGet data part [])

/-- `fetch_garbage(district, street, house)` (source lines 115-170) over
an environment of server responses.  Note the source inspects the status
of neither the initial GET (line 157) nor the final search POST (lines
166-169); only the two `post` helper calls run `raise_for_status`.  The
resolved street and house values are sent in the POST bodies, which the
environment abstracts, so they are bound and unused here; `pick_option`
failures still abort as in the source, evaluated before the following
request is issued. -/
def fetch_garbage (env : Env) (district street house : String) :
    Except FetchErr (List String) := do
  let streets ← post env.streetsResp "ajax/publicPlaces"
  let _streetVal ← (pick_option streets street).mapError FetchErr.runtimeError
  let houses ← post env.housesResp "ajax/houseNumbers"
  let _houseVal ← (pick_option houses house).mapError FetchErr.runtimeError
  (extract_dates env.searchResp.body).mapError FetchErr.jsonError

/-- A server environment whose initial GET answers with status 500 and
whose final search POST answers with status 404, while the two
intermediate POSTs succeed and every body is well-formed.  Used to
exhibit that `fetch_garbage` inspects neither of those two statuses. -/
def envBug : Env :=
  { getStatus := 500
    streetsResp := ⟨200, .ok [("ajax/publicPlaces", [⟨some "55", "Andrássy út"⟩])]⟩
    housesResp := ⟨200, .ok [("ajax/houseNumbers", [⟨some "12", "57"⟩])]⟩
    searchResp := ⟨404, .ok [("ajax/calSearchResults",
      [[⟨"", []⟩, ⟨"2025.01.12.", []⟩, ⟨"", ["selective"]⟩]])]⟩ }

/-! ### Helper lemmas -/

theorem isPrefixB_self : ∀ (l : List Char), isPrefixB l l = true
  | [] => rfl
  | a :: as => by simp [isPrefixB, isPrefixB_self as]

theorem isInfixB_refl (l : List Char) : isInfixB l l = true := by
  cases l with
  | nil => rfl
  | cons a as => simp [isInfixB, isPrefixB_self]

theorem isInfixB_nil_left : ∀ (l : List Char), isInfixB [] l = true
  | [] => rfl
  | b :: bs => by simp [isInfixB, isPrefixB]

theorem isSubstrB_self (s : String) : isSubstrB s s = true :=
  isInfixB_refl s.data

theorem norm_def (s : String) : norm s = pyStrip (dashRepl (pyLower s)) := rfl

theorem norm_eq_of_pyLower_eq {a b : String} (h : pyLower a = pyLower b) :
    norm a = norm b := by
  rw [norm_def, norm_def, h]

/-- The three-rule match condition of source line 78 collapses to its
third disjunct: both equality rules imply normalized-substring
containment. -/
theorem rulesMatch_eq_sub (label l : String) :
    rulesMatch label l = isSubstrB (norm label) (norm l) := by
  unfold rulesMatch
  cases h1 : l == label with
  | true =>
    have hl : l = label := eq_of_beq h1
    subst hl
    simp [isSubstrB_self]
  | false =>
    cases h2 : pyLower l == pyLower label with
    | true =>
      have hn : norm l = norm label := norm_eq_of_pyLower_eq (eq_of_beq h2)
      simp [hn, isSubstrB_self]
    | false => simp

/-- An option with empty stripped text is skipped (`if not l: continue`). -/
theorem pick_optionAux_cons_empty (label : String) (o : OptionElem) (os : List OptionElem)
    (labs : List (String × String)) (h : pyStrip o.text = "") :
    pick_optionAux label (o :: os) labs = pick_optionAux label os labs := by
  simp [pick_optionAux, h]

/-- An option with non-empty stripped text satisfying the match
condition is returned. -/
theorem pick_optionAux_cons_match (label : String) (o : OptionElem) (os : List OptionElem)
    (labs : List (String × String)) (hne : pyStrip o.text ≠ "")
    (hm : rulesMatch label (pyStrip o.text) = true) :
    pick_optionAux label (o :: os) labs = .ok (effValue o) := by
  have h0 : (pyStrip o.text == "") = false := beq_eq_false_iff_ne.mpr hne
  simp [pick_optionAux, effValue, h0, hm]

/-- An option with non-empty stripped text failing the match condition
is recorded among the candidates and the scan continues. -/
theorem pick_optionAux_cons_nomatch (label : String) (o : OptionElem) (os : List OptionElem)
    (labs : List (String × String)) (hne : pyStrip o.text ≠ "")
    (hm : rulesMatch label (pyStrip o.text) = false) :
    pick_optionAux label (o :: os) labs
      = pick_optionAux label os (labs ++ [(pyStrip (o.value.getD ""), pyStrip o.text)]) := by
  have h0 : (pyStrip o.text == "") = false := beq_eq_false_iff_ne.mpr hne
  simp [pick_optionAux, h0, hm]

/-- First match wins: when every option before `e` either has empty
stripped text or fails the match condition, and `e` has non-empty
stripped text and matches, `pick_option` returns `e`'s effective
value. -/
theorem pick_option_first (pre : List OptionElem) (e : OptionElem) (suf : List OptionElem)
    (label : String) (hne : pyStrip e.text ≠ "")
    (hm : rulesMatch label (pyStrip e.text) = true)
    (hpre : ∀ o ∈ pre, pyStrip o.text ≠ "" → rulesMatch label (pyStrip o.text) = false) :
    pick_option (pre ++ e :: suf) label = .ok (effValue e) := by
  have key : ∀ (pre : List OptionElem),
      (∀ o ∈ pre, pyStrip o.text ≠ "" → rulesMatch label (pyStrip o.text) = false) →
      ∀ labs, pick_optionAux label (pre ++ e :: suf) labs = .ok (effValue e) := by
    intro pre
    induction pre with
    | nil => intro _ labs; exact pick_optionAux_cons_match label e suf labs hne hm
    | cons o os ih =>
      intro h labs
      rw [List.cons_append]
      by_cases he : pyStrip o.text = ""
      · rw [pick_optionAux_cons_empty label o _ labs he]
        exact ih (fun o' ho' h' => h o' (List.mem_cons_of_mem _ ho') h') labs
      · rw [pick_optionAux_cons_nomatch label o _ labs he (h o (List.mem_cons_self _ _) he)]
        exact ih (fun o' ho' h' => h o' (List.mem_cons_of_mem _ ho') h') _
  exact key pre hpre []

/-- When no option matches, the scan reaches the end with every
non-empty-text option recorded, and the RuntimeError carries them. -/
theorem pick_optionAux_nomatch_all (label : String) (opts : List OptionElem)
    (h : ∀ o ∈ opts, pyStrip o.text ≠ "" → rulesMatch label (pyStrip o.text) = false) :
    ∀ labs, pick_optionAux label opts labs = .error ⟨label, labs ++ candidates opts⟩ := by
  induction opts with
  | nil => intro labs; simp [pick_optionAux, candidates]
  | cons o os ih =>
    intro labs
    by_cases he : pyStrip o.text = ""
    · rw [pick_optionAux_cons_empty label o os labs he]
      rw [ih (fun o' ho' h' => h o' (List.mem_cons_of_mem _ ho') h') labs]
      have hc : candidates (o :: os) = candidates os := by
        simp [candidates, List.filter_cons, he]
      rw [hc]
    · rw [pick_optionAux_cons_nomatch label o os labs he (h o (List.mem_cons_self _ _) he)]
      rw [ih (fun o' ho' h' => h o' (List.mem_cons_of_mem _ ho') h') _]
      have hc : candidates (o :: os)
          = (pyStrip (o.value.getD ""), pyStrip o.text) :: candidates os := by
        simp [candidates, List.filter_cons, bne_iff_ne.mpr he]
      rw [hc, List.append_assoc]
      rfl

/-- The substring-only scan agrees with the source's scan step by step. -/
theorem pick_optionSubAux_eq (label : String) (opts : List OptionElem) :
    ∀ labs, pick_optionSubAux label opts labs = pick_optionAux label opts labs := by
  induction opts with
  | nil => intro labs; rfl
  | cons o os ih =>
    intro labs
    simp only [pick_optionSubAux, pick_optionAux, ← rulesMatch_eq_sub, ih]

theorem charLower_of_space (c : Char) (h : pyIsSpace c = true) : charLower c = c := by
  simp only [pyIsSpace, Bool.or_eq_true, beq_iff_eq] at h
  rcases h with ((((h | h) | h) | h) | h) | h <;> subst h <;> decide

theorem dashChar_of_space (c : Char) (h : pyIsSpace c = true) : dashChar c = c := by
  simp only [pyIsSpace, Bool.or_eq_true, beq_iff_eq] at h
  rcases h with ((((h | h) | h) | h) | h) | h <;> subst h <;> decide

theorem map_charLower_of_space (l : List Char) (h : l.all pyIsSpace = true) :
    l.map charLower = l := by
  induction l with
  | nil => rfl
  | cons c cs ih =>
    simp only [List.all_cons, Bool.and_eq_true] at h
    simp [charLower_of_space c h.1, ih h.2]

theorem map_dashChar_of_space (l : List Char) (h : l.all pyIsSpace = true) :
    l.map dashChar = l := by
  induction l with
  | nil => rfl
  | cons c cs ih =>
    simp only [List.all_cons, Bool.and_eq_true] at h
    simp [dashChar_of_space c h.1, ih h.2]

theorem stripChars_of_space (l : List Char) (h : l.all pyIsSpace = true) :
    stripChars l = [] := by
  have hd : l.dropWhile pyIsSpace = [] :=
    List.dropWhile_eq_nil_iff.mpr fun x hx => (List.all_eq_true.mp h) x hx
  simp [stripChars, hd]

/-- A whitespace-only label normalizes to the empty string. -/
theorem norm_of_space (label : String) (h : label.data.all pyIsSpace = true) :
    norm label = "" := by
  rw [norm_def]
  show String.mk (stripChars ((label.data.map charLower).map dashChar)) = ""
  rw [map_charLower_of_space label.data h, map_dashChar_of_space label.data h,
    stripChars_of_space label.data h]

/-- A label whose normalization is empty matches every candidate with
non-empty stripped text: the empty string is a substring of anything. -/
theorem rulesMatch_of_norm_empty (label l : String) (h : norm label = "") :
    rulesMatch label l = true := by
  have hsub : isSubstrB (norm label) (norm l) = true := by
    rw [h]; exact isInfixB_nil_left (norm l).data
  simp [rulesMatch, hsub]

theorem dashChar_charLower_eq (c d : Char) (h : dashVar c d = true) :
    dashChar (charLower d) = dashChar (charLower c) := by
  simp only [dashVar, Bool.or_eq_true, Bool.and_eq_true, beq_iff_eq] at h
  rcases h with h | ⟨h1, h2⟩
  · subst h; rfl
  · subst h1; rcases h2 with h2 | h2 <;> subst h2 <;> decide

theorem map_dash_lower_eq (as : List Char) : ∀ bs, dashVars as bs = true →
    bs.map (fun c => dashChar (charLower c)) = as.map (fun c => dashChar (charLower c)) := by
  induction as with
  | nil =>
    intro bs h
    cases bs with
    | nil => rfl
    | cons b bs => simp [dashVars] at h
  | cons a as ih =>
    intro bs h
    cases bs with
    | nil => simp [dashVars] at h
    | cons b bs =>
      simp only [dashVars, Bool.and_eq_true] at h
      simp [List.map_cons, dashChar_charLower_eq a b h.1, ih bs h.2]

/-- Dash-variant texts normalize identically. -/
theorem norm_eq_of_dashVars (label l : String) (h : dashVars label.data l.data = true) :
    norm l = norm label := by
  rw [norm_def, norm_def]
  show String.mk (stripChars ((l.data.map charLower).map dashChar))
      = String.mk (stripChars ((label.data.map charLower).map dashChar))
  have h2 : (l.data.map charLower).map dashChar = (label.data.map charLower).map dashChar := by
    rw [List.map_map, List.map_map]
    simpa [Function.comp_def] using map_dash_lower_eq label.data l.data h
  rw [h2]

theorem pick_option_cons_empty (label : String) (o : OptionElem) (os : List OptionElem)
    (h : pyStrip o.text = "") :
    pick_option (o :: os) label = pick_option os label :=
  pick_optionAux_cons_empty label o os [] h

/-- A label normalizing to the empty string makes `pick_option` return
the first option with non-empty stripped text. -/
theorem pick_option_norm_empty (label : String) (hn : norm label = "") :
    ∀ (opts : List OptionElem) (e : OptionElem),
      opts.find? (fun o => pyStrip o.text != "") = some e →
      pick_option opts label = .ok (effValue e) := by
  intro opts
  induction opts with
  | nil => intro e he; simp [List.find?] at he
  | cons o os ih =>
    intro e he
    by_cases h : pyStrip o.text = ""
    · rw [List.find?_cons_of_neg _ (by simp [h])] at he
      rw [pick_option_cons_empty label o os h]
      exact ih e he
    · rw [List.find?_cons_of_pos _ (by simp [h])] at he
      cases he
      exact pick_optionAux_cons_match label o os [] h (rulesMatch_of_norm_empty label _ hn)

/-- Each row contributes to `extract_dates` exactly under the spec's
row condition. -/
theorem rowDate_eq_spec (r : List Td) :
    rowDate r = if decide (3 ≤ r.length) && (r.getD 2 ⟨"", []⟩).markers.contains "selective"
      then some (pyStrip (r.getD 1 ⟨"", []⟩).text) else none := by
  match r with
  | [] => rfl
  | [t0] => rfl
  | [t0, t1] => rfl
  | t0 :: t1 :: t2 :: rest =>
    have hlen : decide (3 ≤ (t0 :: t1 :: t2 :: rest).length) = true := by
      simp [List.length_cons]
    by_cases hm : t2.markers.contains "selective"
    · simp [rowDate, hm, hlen, List.getD]
    · simp [rowDate, hm, hlen, List.getD]

theorem filterMap_rowDate_eq (rows : List (List Td)) :
    rows.filterMap rowDate = specSelectiveDates rows := by
  unfold specSelectiveDates
  induction rows with
  | nil => rfl
  | cons r rows ih =>
    rw [List.filterMap_cons, List.filter_cons, rowDate_eq_spec r]
    by_cases hp : 3 ≤ r.length
    · by_cases hm : "selective" ∈ (r[2]?.getD (⟨"", []⟩ : Td)).markers
      · simp [hp, hm, ih, List.getD]
      · simp [hp, hm, ih, List.getD]
    · simp [hp, ih]

/-! ### Claim theorems -/

/-- C1 (counterexample): in `cexC1` the label `"ab"` appears verbatim
as the second option's text, whose returned value would be `"2"`, but
the first option already matches by normalized-substring containment,
so `pick_option` returns `"1"` — exact text equality does not take
precedence over an earlier option's substring match. -/
theorem pick_option_verbatim_cex :
    pyStrip (cexC1.getD 1 ⟨none, ""⟩).text = "ab"
    ∧ effValue (cexC1.getD 1 ⟨none, ""⟩) = "2"
    ∧ pick_option cexC1 "ab" = .ok "1"
    ∧ pick_option cexC1 "ab" ≠ .ok "2" :=
  ⟨by decide, by decide, by decide, by decide⟩

/-- C1 (amended): when the target label appears verbatim as the
stripped text of some option and no option before it in document order
satisfies any of the three matching rules (on non-empty stripped text),
`pick_option` returns exactly that option's value, or its text if the
value is empty. -/
theorem pick_option_verbatim_first (pre : List OptionElem) (e : OptionElem)
    (suf : List OptionElem) (label : String)
    (hv : pyStrip e.text = label) (hne : label ≠ "")
    (hpre : ∀ o ∈ pre, pyStrip o.text ≠ "" → rulesMatch label (pyStrip o.text) = false) :
    pick_option (pre ++ e :: suf) label = .ok (effValue e) :=
  pick_option_first pre e suf label (by rw [hv]; exact hne)
    (by simp [rulesMatch, hv]) hpre

/-- Witness for C1 (amended) at a concrete fragment: the first option
fails all rules for `"ab"`, the second carries `"ab"` verbatim. -/
theorem pick_option_verbatim_first_witness :
    pyStrip (OptionElem.mk (some "2") "ab").text = "ab"
    ∧ pick_option [⟨some "1", "Foo"⟩, ⟨some "2", "ab"⟩] "ab" = .ok "2" :=
  ⟨by decide, pick_option_verbatim_first [⟨some "1", "Foo"⟩] ⟨some "2", "ab"⟩ [] "ab"
    (by decide) (by decide) (by decide)⟩

/-- C2 (code bug): the docstring of `fetch_garbage` promises
`requests.HTTPError` when any HTTP request returns a non-success
status, but only the two `post` helper calls run `raise_for_status`:
with the initial GET answering status 500 and the final search POST
answering status 404, `fetch_garbage` still returns the parsed dates
instead of propagating an HTTP error. -/
theorem fetch_garbage_status_unchecked :
    envBug.getStatus = 500 ∧ envBug.searchResp.status = 404
    ∧ fetch_garbage envBug "1062" "Andrássy" "57" = .ok ["2025.01.12."] :=
  ⟨rfl, rfl, by decide⟩

/-- C3: on a decoded response object, `extract_dates` returns, in
document order, exactly the trimmed second-column texts of those rows
of the `"ajax/calSearchResults"` fragment that have at least three
columns and a `.selective` marker in the third column; every other row
is skipped. -/
theorem extract_dates_selective_rows (data : List (String × List (List Td))) :
    extract_dates (.ok data)
      = .ok (specSelectiveDates (objGet data "ajax/calSearchResults" [])) := by
  show Except.ok ((objGet data "ajax/calSearchResults" []).filterMap rowDate) = _
  rw [filterMap_rowDate_eq]

/-- C4: when no option with non-empty stripped text satisfies any of
the three matching rules, `pick_option` raises the lookup error
carrying the sought label and the full candidate (value, label) list
seen. -/
theorem pick_option_no_match_error (opts : List OptionElem) (label : String)
    (h : ∀ o ∈ opts, pyStrip o.text ≠ "" → rulesMatch label (pyStrip o.text) = false) :
    pick_option opts label = .error ⟨label, candidates opts⟩ := by
  have key := pick_optionAux_nomatch_all label opts h []
  simpa [pick_option] using key

/-- Witness for C4: no rule matches `"Bar"` in a two-option fragment
whose second option has whitespace-only text (and is hence not a
candidate). -/
theorem pick_option_no_match_error_witness :
    (∀ o ∈ ([⟨some "1", "Foo"⟩, ⟨none, " "⟩] : List OptionElem),
      pyStrip o.text ≠ "" → rulesMatch "Bar" (pyStrip o.text) = false)
    ∧ pick_option [⟨some "1", "Foo"⟩, ⟨none, " "⟩] "Bar"
      = .error ⟨"Bar", [("1", "Foo")]⟩ :=
  ⟨by decide, pick_option_no_match_error [⟨some "1", "Foo"⟩, ⟨none, " "⟩] "Bar" (by decide)⟩

/-- C5: when the decoded JSON object has no `"ajax/calSearchResults"`
key, `extract_dates` returns the empty list, not an error. -/
theorem extract_dates_missing_key (data : List (String × List (List Td)))
    (h : data.find? (fun p => p.1 == "ajax/calSearchResults") = none) :
    extract_dates (.ok data) = .ok [] := by
  show Except.ok ((objGet data "ajax/calSearchResults" []).filterMap rowDate) = _
  unfold objGet
  rw [h]
  rfl

/-- Witness for C5 at an object holding only an unrelated key. -/
theorem extract_dates_missing_key_witness :
    (([("x", ([] : List (List Td)))]).find? (fun p => p.1 == "ajax/calSearchResults") = none)
    ∧ extract_dates (.ok [("x", ([] : List (List Td)))]) = .ok [] :=
  ⟨by decide, extract_dates_missing_key [("x", [])] (by decide)⟩

/-- C6: a JSON decoding failure propagates out of `extract_dates`
unchanged — the function installs no handler and produces no partial
result. -/
theorem extract_dates_decode_error (e : JsonErr) :
    extract_dates (.error e) = .error e := rfl

/-- C7: matching is case-insensitive — an option whose stripped text
equals the target label up to letter case is matched (when no earlier
option satisfies any rule), and its value (or text, if the value is
empty) is returned. -/
theorem pick_option_case_insensitive (pre : List OptionElem) (e : OptionElem)
    (suf : List OptionElem) (label : String)
    (hne : pyStrip e.text ≠ "")
    (hci : pyLower (pyStrip e.text) = pyLower label)
    (hpre : ∀ o ∈ pre, pyStrip o.text ≠ "" → rulesMatch label (pyStrip o.text) = false) :
    pick_option (pre ++ e :: suf) label = .ok (effValue e) :=
  pick_option_first pre e suf label hne (by simp [rulesMatch, hci]) hpre

/-- Witness for C7: label `"ANDRÁSSY"` against option text
`"Andrássy"`, behind an unrelated first option. -/
theorem pick_option_case_insensitive_witness :
    pyLower (pyStrip (OptionElem.mk (some "5") "Andrássy").text) = pyLower "ANDRÁSSY"
    ∧ pick_option [⟨some "1", "Foo"⟩, ⟨some "5", "Andrássy"⟩] "ANDRÁSSY" = .ok "5" :=
  ⟨by decide, pick_option_case_insensitive [⟨some "1", "Foo"⟩] ⟨some "5", "Andrássy"⟩ []
    "ANDRÁSSY" (by decide) (by decide) (by decide)⟩

/-- C8: dash normalization — when the candidate text is the target
label with plain hyphens replaced (pointwise) by en or em dashes, the
two sides normalize identically, so the normalized-substring test and
hence the match condition of source line 78 succeed. -/
theorem rulesMatch_dash_normalization (label l : String)
    (h : dashVars label.data l.data = true) :
    rulesMatch label l = true := by
  have hn : norm l = norm label := norm_eq_of_dashVars label l h
  simp [rulesMatch, hn, isSubstrB_self]

/-- Witness for C8: `"Szép-utca"` against `"Szép–utca"` (en dash). -/
theorem rulesMatch_dash_normalization_witness :
    dashVars "Szép-utca".data "Szép–utca".data = true
    ∧ rulesMatch "Szép-utca" "Szép–utca" = true :=
  ⟨by decide, rulesMatch_dash_normalization "Szép-utca" "Szép–utca" (by decide)⟩

/-- C9: a whitespace-only (or empty) target label never makes
`pick_option` raise on a fragment containing an option with non-empty
stripped text: its normalization is the empty string, a substring of
every candidate, so the first option with non-empty stripped text is
returned. -/
theorem pick_option_blank_label (opts : List OptionElem) (label : String) (e : OptionElem)
    (hsp : label.data.all pyIsSpace = true)
    (hfind : opts.find? (fun o => pyStrip o.text != "") = some e) :
    pick_option opts label = .ok (effValue e) :=
  pick_option_norm_empty label (norm_of_space label hsp) opts e hfind

/-- Witness for C9: the blank label `" "` against a fragment whose
first option has whitespace-only text and whose second is returned. -/
theorem pick_option_blank_label_witness :
    (" ".data.all pyIsSpace = true)
    ∧ (([⟨none, "  "⟩, ⟨some "7", "X"⟩] : List OptionElem).find?
        (fun o => pyStrip o.text != "") = some ⟨some "7", "X"⟩)
    ∧ pick_option [⟨none, "  "⟩, ⟨some "7", "X"⟩] " " = .ok "7" :=
  ⟨by decide, by decide,
    pick_option_blank_label [⟨none, "  "⟩, ⟨some "7", "X"⟩] " " ⟨some "7", "X"⟩
      (by decide) (by decide)⟩

/-- C10: the per-candidate condition of `pick_option` is equivalent to
the normalized-substring rule alone, so the substring-only matcher
`pick_optionSub` is extensionally equal to `pick_option` on every
fragment and label. -/
theorem pick_option_substring_refinement (opts : List OptionElem) (label : String) :
    pick_optionSub opts label = pick_option opts label :=
  pick_optionSubAux_eq label opts []
